import Mathlib

/-!
Verification of the GPU allocation-donation and execution driver subsystem
(gpu_hsail_Tlab.hpp and gpu_ptx.cpp), shallowly embedded in Lean.

Pointers (HeapWord*, JavaThread*) are modelled as natural numbers, with 0
standing for NULL.  External collaborators (the managed heap, the TLAB
record of a thread, the dynamic-library loader, the CUDA driver) are
modelled as explicit environments/oracles passed into each operation.
-/

/-! ## HSAIL TLAB records (gpu_hsail_Tlab.hpp, class HSAILTlabInfo) -/

/-- The fields of `HSAILTlabInfo` that the claims are about; `_alloc_info`
(a back pointer carrying no data) is omitted.  `end_` embeds the C++ field
`_end` (`end` is a Lean keyword); `donor_thread` holds the donor thread's
identity (its index in the donor-thread array). -/
structure HSAILTlabInfo where
  start : Nat
  top : Nat
  end_ : Nat
  last_good_top : Nat
  original_top : Nat
  donor_thread : Nat
deriving Repr, DecidableEq, Inhabited

/-- Embeds `HSAILTlabInfo::initialize`: sets `_start`, `_top = _original_top = top`,
`_end` and `_donor_thread`, and writes no other field (in particular
`_last_good_top` keeps whatever value the record held before). -/
def HSAILTlabInfo.initRecord (info : HSAILTlabInfo) (start top end_ donorThread : Nat) :
    HSAILTlabInfo :=
  { info with
    start := start
    top := top
    original_top := top
    end_ := end_
    donor_thread := donorThread }

/-! ## postKernelCleanup (gpu_hsail_Tlab.hpp, HSAILAllocationInfo::postKernelCleanup)

The pool of tlabInfos is modelled as the list of records stored in the
arena (`infos`, whose length is the arena capacity `max_tlab_infos`,
i.e. the distance from `_tlab_infos_pool_start` to `_tlab_infos_pool_end`)
together with the cursor `poolNext` (the distance from the pool start to
`_tlab_infos_pool_next`; GPU-side code may have pushed it past the
capacity).  Calls made into the external heap/TLAB code are recorded as a
trace of events. -/

/-- External calls issued by `postKernelCleanup`, in order:
`tlab->fill(start, top, size)`, `tlab->make_parsable(retire)`, and the
(commented-out in the source) `Hsail::kernelStats.incOverflows()`. -/
inductive CleanupEvent where
  | fill (thread : Nat) (start top : Nat) (newSizeWords : Int)
  | makeParsable (thread : Nat) (retire : Bool)
  | incOverflows
deriving Repr, DecidableEq

/-- Per-record state change of the cleanup loop body: if the record was
processed (`start != NULL`) and overflowed (`top > end`), `_top` is rolled
back to `last_good_top()`; otherwise the record is unchanged. -/
def cleanupInfo (info : HSAILTlabInfo) : HSAILTlabInfo :=
  if info.start ≠ 0 ∧ info.end_ < info.top then
    { info with top := info.last_good_top }
  else info

/-- Per-record external calls of the cleanup loop body: nothing for a
record with NULL `start`; otherwise the unconditional
`tlab->fill(start, top, (end - start) + alignment_reserve)` (with the
already rolled-back `top`), followed by `tlab->make_parsable(true)`
when the record overflowed. -/
def cleanupEventsFor (alignmentReserve : Nat) (info : HSAILTlabInfo) : List CleanupEvent :=
  if info.start = 0 then []
  else
    let info2 := cleanupInfo info
    CleanupEvent.fill info.donor_thread info2.start info2.top
        (((info2.end_ : Int) - (info2.start : Int)) + (alignmentReserve : Int))
      :: (if info.end_ < info.top then
            [CleanupEvent.makeParsable info.donor_thread true]
          else [])

/-- Per-record contribution to `bytesAllocated`:
`size_t delta = (long)(tlabInfo->top()) - (long)(tlabInfo->original_top())`,
i.e. the (possibly negative) difference taken modulo 2^64, computed after
the overflow rollback; records with NULL `start` contribute nothing. -/
def cleanupDelta (info : HSAILTlabInfo) : Nat :=
  if info.start = 0 then 0
  else ((((cleanupInfo info).top : Int) - ((cleanupInfo info).original_top : Int)) % (2 ^ 64 : Int)).toNat

/-- Result of `postKernelCleanup`: the arena contents, the (clamped)
cursor, the trace of external calls, the `bytesAllocated` accumulator and
the `anyOverflows` flag at the end of the routine. -/
structure CleanupResult where
  infos : List HSAILTlabInfo
  poolNext : Nat
  events : List CleanupEvent
  bytesAllocated : Nat
  anyOverflows : Bool
deriving Repr, DecidableEq

/-- Embeds `HSAILAllocationInfo::postKernelCleanup`.  First the cursor is
clamped to the arena capacity when it overflowed
(`if (_tlab_infos_pool_next > _tlab_infos_pool_end) _tlab_infos_pool_next = _tlab_infos_pool_end`),
then every record from the pool start up to the clamped cursor is
processed; `bytesAllocated` is a `size_t`, so it accumulates modulo 2^64.
The overflow-counter call `Hsail::kernelStats.incOverflows()` is commented
out in the source, so no `incOverflows` event is ever emitted (only the
local flag `anyOverflows` records that some region overflowed). -/
def postKernelCleanup (alignmentReserve : Nat) (infos : List HSAILTlabInfo)
    (poolNext : Nat) : CleanupResult :=
  let poolNext2 := if infos.length < poolNext then infos.length else poolNext
  let processed := infos.take poolNext2
  { infos := processed.map cleanupInfo ++ infos.drop poolNext2
    poolNext := poolNext2
    events := (processed.map (cleanupEventsFor alignmentReserve)).flatten
    bytesAllocated := (processed.map cleanupDelta).foldl (fun a d => (a + d) % 2 ^ 64) 0
    anyOverflows := processed.any (fun info => decide (info.start ≠ 0 ∧ info.end_ < info.top)) }

/-- Number of `incOverflows` calls in a cleanup trace. -/
def incOverflowCount (events : List CleanupEvent) : Nat :=
  (events.filter (fun e => match e with | CleanupEvent.incOverflows => true | _ => false)).length

/-! ## Basic facts about the cleanup -/

theorem cleanup_poolNext_min (alignmentReserve : Nat) (infos : List HSAILTlabInfo)
    (poolNext : Nat) :
    (postKernelCleanup alignmentReserve infos poolNext).poolNext = min poolNext infos.length := by
  simp only [postKernelCleanup]
  split <;> omega

theorem cleanup_infos_length (alignmentReserve : Nat) (infos : List HSAILTlabInfo)
    (poolNext : Nat) :
    (postKernelCleanup alignmentReserve infos poolNext).infos.length = infos.length := by
  simp only [postKernelCleanup, List.length_append, List.length_map, List.length_take,
    List.length_drop]
  split <;> omega

theorem cleanup_infos_drop (alignmentReserve : Nat) (infos : List HSAILTlabInfo)
    (poolNext : Nat) :
    (postKernelCleanup alignmentReserve infos poolNext).infos.drop
        (postKernelCleanup alignmentReserve infos poolNext).poolNext =
      infos.drop (postKernelCleanup alignmentReserve infos poolNext).poolNext := by
  simp only [postKernelCleanup]
  have hlen : ((infos.take (if infos.length < poolNext then infos.length else poolNext)).map
      cleanupInfo).length = if infos.length < poolNext then infos.length else poolNext := by
    simp only [List.length_map, List.length_take]
    split <;> omega
  have hdrop := List.drop_left
    ((infos.take (if infos.length < poolNext then infos.length else poolNext)).map cleanupInfo)
    (infos.drop (if infos.length < poolNext then infos.length else poolNext))
  rw [hlen] at hdrop
  exact hdrop

/-- C4: the allocation cursor is clamped to the pool end before the
cleanup iteration, the iteration stays inside the arena (the arena keeps
its size and every slot at or past the clamped cursor is untouched), and
pool overflow is recoverable: the cleanup is an ordinary total function of
the pool state. -/
theorem cleanup_cursor_clamped (alignmentReserve : Nat) (infos : List HSAILTlabInfo)
    (poolNext : Nat) :
    (postKernelCleanup alignmentReserve infos poolNext).poolNext = min poolNext infos.length ∧
    (postKernelCleanup alignmentReserve infos poolNext).poolNext ≤ infos.length ∧
    (postKernelCleanup alignmentReserve infos poolNext).infos.length = infos.length ∧
    (postKernelCleanup alignmentReserve infos poolNext).infos.drop
        (postKernelCleanup alignmentReserve infos poolNext).poolNext =
      infos.drop (postKernelCleanup alignmentReserve infos poolNext).poolNext :=
  ⟨cleanup_poolNext_min alignmentReserve infos poolNext,
   by rw [cleanup_poolNext_min]; omega,
   cleanup_infos_length alignmentReserve infos poolNext,
   cleanup_infos_drop alignmentReserve infos poolNext⟩

/-- C10: `HSAILTlabInfo::initialize` sets `top` and `originalTop` to the
given `top` and does not write `lastGoodTop`: the record keeps whatever
`lastGoodTop` it held before. -/
theorem initRecord_top_originalTop_lastGoodTop (info : HSAILTlabInfo)
    (s t e d : Nat) :
    (info.initRecord s t e d).top = t ∧
    (info.initRecord s t e d).original_top = t ∧
    (info.initRecord s t e d).last_good_top = info.last_good_top ∧
    (info.initRecord s t e d).start = s ∧
    (info.initRecord s t e d).end_ = e ∧
    (info.initRecord s t e d).donor_thread = d :=
  ⟨rfl, rfl, rfl, rfl, rfl, rfl⟩

/-! ## The overflowed-region rule of the cleanup (claim C1) -/

theorem cleanup_infos_getD (alignmentReserve : Nat) (infos : List HSAILTlabInfo)
    (poolNext i : Nat) (hi : i < poolNext) (hil : i < infos.length) :
    (postKernelCleanup alignmentReserve infos poolNext).infos.getD i default =
      cleanupInfo (infos.get ⟨i, hil⟩) := by
  simp only [postKernelCleanup]
  have hb : i < (if infos.length < poolNext then infos.length else poolNext) := by
    split <;> omega
  have htake : i < (infos.take (if infos.length < poolNext then infos.length else poolNext)).length := by
    simp only [List.length_take]
    omega
  have hmap : i < ((infos.take (if infos.length < poolNext then infos.length else poolNext)).map
      cleanupInfo).length := by
    simpa using htake
  have happ : i < ((infos.take (if infos.length < poolNext then infos.length else poolNext)).map
      cleanupInfo ++ infos.drop (if infos.length < poolNext then infos.length else poolNext)).length := by
    simp only [List.length_append]
    omega
  rw [List.getD_eq_getElem _ _ happ, List.getElem_append_left hmap, List.getElem_map,
    List.getElem_take]
  rfl

theorem cleanup_events_of_mem (alignmentReserve : Nat) (infos : List HSAILTlabInfo)
    (poolNext i : Nat) (hi : i < poolNext) (hil : i < infos.length) :
    cleanupEventsFor alignmentReserve (infos.get ⟨i, hil⟩) ∈
      ((infos.take (if infos.length < poolNext then infos.length else poolNext)).map
        (cleanupEventsFor alignmentReserve)) := by
  have hb : i < (if infos.length < poolNext then infos.length else poolNext) := by
    split <;> omega
  have htake : i < (infos.take (if infos.length < poolNext then infos.length else poolNext)).length := by
    simp only [List.length_take]
    omega
  have hget : (infos.take (if infos.length < poolNext then infos.length else poolNext)).get
      ⟨i, htake⟩ = infos.get ⟨i, hil⟩ := by
    simp [List.getElem_take]
  rw [← hget]
  exact List.mem_map_of_mem _ (List.get_mem _ _ _)

theorem cleanup_incOverflowCount_zero (alignmentReserve : Nat) (infos : List HSAILTlabInfo)
    (poolNext : Nat) :
    incOverflowCount (postKernelCleanup alignmentReserve infos poolNext).events = 0 := by
  simp only [postKernelCleanup, incOverflowCount]
  rw [List.length_eq_zero, List.filter_eq_nil_iff]
  intro e he
  rcases List.mem_flatten.1 he with ⟨ev, hev, hee⟩
  rcases List.mem_map.1 hev with ⟨a, _, rfl⟩
  simp only [cleanupEventsFor] at hee
  split at hee
  · simp at hee
  · rcases List.mem_cons.1 hee with h | h
    · subst h; simp
    · split at h
      · rcases List.mem_singleton.1 h with rfl
        simp
      · simp at h

/-- C1 (amended): for every region processed by `postKernelCleanup` whose
`start` is non-null and whose `top` was set beyond `end` before cleanup,
after cleanup that region's `top` equals `lastGoodTop`, the donor thread's
allocation buffer is made parsable with retirement semantics
(`make_parsable(true)`), and the aggregate overflow flag `anyOverflows` is
set; the aggregate overflow counter, however, does not change, because the
`Hsail::kernelStats.incOverflows()` call is commented out in the source. -/
theorem cleanup_overflowed_region (alignmentReserve : Nat) (infos : List HSAILTlabInfo)
    (poolNext i : Nat) (hi : i < poolNext) (hil : i < infos.length)
    (hstart : (infos.get ⟨i, hil⟩).start ≠ 0)
    (hover : (infos.get ⟨i, hil⟩).end_ < (infos.get ⟨i, hil⟩).top) :
    ((postKernelCleanup alignmentReserve infos poolNext).infos.getD i default).top =
        (infos.get ⟨i, hil⟩).last_good_top ∧
    CleanupEvent.makeParsable (infos.get ⟨i, hil⟩).donor_thread true ∈
        (postKernelCleanup alignmentReserve infos poolNext).events ∧
    (postKernelCleanup alignmentReserve infos poolNext).anyOverflows = true ∧
    incOverflowCount (postKernelCleanup alignmentReserve infos poolNext).events = 0 := by
  refine ⟨?_, ?_, ?_, cleanup_incOverflowCount_zero alignmentReserve infos poolNext⟩
  · rw [cleanup_infos_getD alignmentReserve infos poolNext i hi hil]
    unfold cleanupInfo
    rw [if_pos ⟨hstart, hover⟩]
  · have hmem := cleanup_events_of_mem alignmentReserve infos poolNext i hi hil
    have hev : CleanupEvent.makeParsable (infos.get ⟨i, hil⟩).donor_thread true ∈
        cleanupEventsFor alignmentReserve (infos.get ⟨i, hil⟩) := by
      unfold cleanupEventsFor
      rw [if_neg hstart]
      have hover2 : infos[i].end_ < infos[i].top := hover
      simp [hover2]
    exact List.mem_flatten.2 ⟨_, hmem, hev⟩
  · have hb : i < (if infos.length < poolNext then infos.length else poolNext) := by
      split <;> omega
    have htake : i < (infos.take (if infos.length < poolNext then infos.length else poolNext)).length := by
      simp only [List.length_take]
      omega
    have hget : (infos.take (if infos.length < poolNext then infos.length else poolNext)).get
        ⟨i, htake⟩ = infos.get ⟨i, hil⟩ := by
      simp [List.getElem_take]
    simp only [postKernelCleanup]
    apply List.any_eq_true.2
    refine ⟨infos.get ⟨i, hil⟩, ?_, ?_⟩
    · rw [← hget]; exact List.get_mem _ _ _
    · simp only [decide_eq_true_eq]
      exact ⟨hstart, hover⟩

/-- C1 counterexample: a pool with a single region whose `top` (300) was
set beyond `end` (200).  Cleanup rolls `top` back to `lastGoodTop` (150),
but the aggregate overflow counter does not increment by one — the
`incOverflows` call is commented out in the source, so it stays at zero. -/
theorem cleanup_overflow_counter_counterexample :
    (100 : Nat) ≠ 0 ∧ (200 : Nat) < 300 ∧
    ((postKernelCleanup 4 [⟨100, 300, 200, 150, 120, 0⟩] 1).infos.getD 0 default).top = 150 ∧
    (postKernelCleanup 4 [⟨100, 300, 200, 150, 120, 0⟩] 1).anyOverflows = true ∧
    ¬ incOverflowCount (postKernelCleanup 4 [⟨100, 300, 200, 150, 120, 0⟩] 1).events = 1 := by
  decide

theorem cleanup_overflowed_region_witness :
    ((postKernelCleanup 4 [⟨100, 300, 200, 150, 120, 7⟩] 1).infos.getD 0 default).top = 150 ∧
    CleanupEvent.makeParsable 7 true ∈ (postKernelCleanup 4 [⟨100, 300, 200, 150, 120, 7⟩] 1).events ∧
    (postKernelCleanup 4 [⟨100, 300, 200, 150, 120, 7⟩] 1).anyOverflows = true ∧
    incOverflowCount (postKernelCleanup 4 [⟨100, 300, 200, 150, 120, 7⟩] 1).events = 0 :=
  cleanup_overflowed_region 4 [⟨100, 300, 200, 150, 120, 7⟩] 1 0 (by decide) (by decide)
    (by decide) (by decide)

/-! ## Bytes-allocated telemetry (claim C7) -/

theorem foldl_addMod64 (l : List Nat) : ∀ a : Nat,
    l.foldl (fun x d => (x + d) % 2 ^ 64) (a % 2 ^ 64) = (a + l.sum) % 2 ^ 64 := by
  induction l with
  | nil => intro a; simp
  | cons d l ih =>
    intro a
    simp only [List.foldl_cons, List.sum_cons]
    rw [Nat.mod_add_mod, ih (a + d)]
    congr 1
    omega

theorem foldl_addMod64_zero (l : List Nat) :
    l.foldl (fun x d => (x + d) % 2 ^ 64) 0 = l.sum % 2 ^ 64 := by
  have h := foldl_addMod64 l 0
  simpa using h

theorem cleanupDelta_eq_sub (info : HSAILTlabInfo) (hstart : info.start ≠ 0)
    (hle : info.original_top ≤ (cleanupInfo info).top)
    (hlt : (cleanupInfo info).top - info.original_top < 2 ^ 64) :
    cleanupDelta info = (cleanupInfo info).top - info.original_top := by
  have horig : (cleanupInfo info).original_top = info.original_top := by
    unfold cleanupInfo
    split <;> rfl
  unfold cleanupDelta
  rw [if_neg hstart, horig]
  have hcast : ((cleanupInfo info).top : Int) - (info.original_top : Int) =
      (((cleanupInfo info).top - info.original_top : Nat) : Int) := by
    rw [Nat.cast_sub hle]
  rw [hcast]
  have hnonneg : (0 : Int) ≤ (((cleanupInfo info).top - info.original_top : Nat) : Int) :=
    Int.natCast_nonneg _
  have hltInt : (((cleanupInfo info).top - info.original_top : Nat) : Int) < (2 ^ 64 : Int) := by
    exact_mod_cast hlt
  rw [Int.emod_eq_of_lt hnonneg hltInt]
  exact Int.toNat_natCast _

theorem cleanupDelta_sum (l : List HSAILTlabInfo)
    (h : ∀ info ∈ l, info.start ≠ 0 →
      info.original_top ≤ (cleanupInfo info).top ∧
      (cleanupInfo info).top - info.original_top < 2 ^ 64) :
    (l.map cleanupDelta).sum =
      ((l.filter (fun info => info.start ≠ 0)).map
        (fun info => (cleanupInfo info).top - info.original_top)).sum := by
  induction l with
  | nil => simp
  | cons a l ih =>
    have ha := h a (List.mem_cons_self a l)
    have hrest : ∀ info ∈ l, info.start ≠ 0 →
        info.original_top ≤ (cleanupInfo info).top ∧
        (cleanupInfo info).top - info.original_top < 2 ^ 64 :=
      fun info hm => h info (List.mem_cons_of_mem a hm)
    by_cases hz : a.start = 0
    · simp only [List.map_cons, List.sum_cons, List.filter_cons]
      rw [ih hrest]
      simp [cleanupDelta, hz]
    · have hd := cleanupDelta_eq_sub a hz (ha hz).1 (ha hz).2
      simp only [List.map_cons, List.sum_cons, List.filter_cons]
      rw [ih hrest, hd]
      simp [hz]

/-- C7: after `postKernelCleanup`, the `bytesAllocated` telemetry equals
the sum over all processed regions with non-null `start` of
`finalTop - originalTop`, where `finalTop` of an overflowed region is the
value after clamping `top` to `lastGoodTop` (that is, `(cleanupInfo info).top`).
The two side conditions say that the machine `size_t` arithmetic does not
wrap: each region's final `top` is at least its `originalTop`, and the
total fits in 64 bits. -/
theorem cleanup_bytesAllocated_eq_sum (alignmentReserve : Nat)
    (infos : List HSAILTlabInfo) (poolNext : Nat)
    (hmono : ∀ info ∈ infos.take (min poolNext infos.length), info.start ≠ 0 →
      info.original_top ≤ (cleanupInfo info).top)
    (hbound : (((infos.take (min poolNext infos.length)).filter
        (fun info => info.start ≠ 0)).map
        (fun info => (cleanupInfo info).top - info.original_top)).sum < 2 ^ 64) :
    (postKernelCleanup alignmentReserve infos poolNext).bytesAllocated =
      (((infos.take (min poolNext infos.length)).filter
        (fun info => info.start ≠ 0)).map
        (fun info => (cleanupInfo info).top - info.original_top)).sum := by
  have hb : (if infos.length < poolNext then infos.length else poolNext) =
      min poolNext infos.length := by
    split <;> omega
  have hmem : ∀ info ∈ infos.take (min poolNext infos.length), info.start ≠ 0 →
      info.original_top ≤ (cleanupInfo info).top ∧
      (cleanupInfo info).top - info.original_top < 2 ^ 64 := by
    intro info hm hs
    refine ⟨hmono info hm hs, ?_⟩
    have hterm : (cleanupInfo info).top - info.original_top ∈
        ((infos.take (min poolNext infos.length)).filter
          (fun info => info.start ≠ 0)).map
          (fun info => (cleanupInfo info).top - info.original_top) := by
      refine List.mem_map_of_mem _ (List.mem_filter.2 ⟨hm, ?_⟩)
      simpa using hs
    have hle := List.single_le_sum (fun x _ => Nat.zero_le x) _ hterm
    omega
  simp only [postKernelCleanup, hb]
  rw [foldl_addMod64_zero, cleanupDelta_sum _ hmem, Nat.mod_eq_of_lt hbound]

theorem cleanup_bytesAllocated_eq_sum_witness :
    (postKernelCleanup 0
      [⟨100, 130, 200, 150, 120, 0⟩, ⟨0, 0, 0, 0, 0, 1⟩, ⟨10, 300, 20, 15, 12, 2⟩]
      3).bytesAllocated = 13 := by
  have h := cleanup_bytesAllocated_eq_sum 0
    [⟨100, 130, 200, 150, 120, 0⟩, ⟨0, 0, 0, 0, 0, 1⟩, ⟨10, 300, 20, 15, 12, 2⟩]
    3 (by decide) (by decide)
  rw [h]
  decide

/-! ## HSAILAllocationInfo construction (gpu_hsail_Tlab.hpp, constructor and
getNewTlabForDonorThread)

The donor threads and the managed heap are external collaborators; each
donor thread is modelled by the state its `ThreadLocalAllocBuffer` shows to
this code plus an oracle for the external calls the constructor makes on
its behalf (`compute_size`, `allocate_new_tlab`). -/

/-- The `(start, top, end)` triple of a donor thread's
`ThreadLocalAllocBuffer`, as read through `tlab->start()/top()/end()`;
0 encodes NULL. -/
structure Tlab where
  start : Nat
  top : Nat
  end_ : Nat
deriving Repr, DecidableEq, Inhabited

/-- Per-donor-thread external state and oracle: the thread's TLAB at
construction time, the result of `tlab->compute_size(0)`, and the result of
`Universe::heap()->allocate_new_tlab(size)` (`none` = NULL, allocation
failed). -/
structure DonorEnv where
  tlab0 : Tlab
  computeSize : Nat
  allocResult : Option Nat
deriving Repr, Inhabited

/-- Modelled from the spec: `ThreadLocalAllocBuffer::clear_before_allocation`
(runtime code outside src/) retires/finalizes whatever partial region
currently exists on the thread, making it heap-parsable and leaving the
thread without a current region; on a thread with no region (`end == NULL`)
it is a no-op. -/
def clearBeforeAllocation (t : Tlab) : Tlab :=
  if t.end_ ≠ 0 then ⟨0, 0, 0⟩ else t

/-- Modelled from the spec: `ThreadLocalAllocBuffer::fill(start, top, size)`
(`threadCommitRegion`, runtime code outside src/) records `start`/`top`/`end`
on the thread's allocation state for a freshly allocated region of `size`
words. -/
def Tlab.fill (start top size : Nat) : Tlab :=
  ⟨start, top, start + size⟩

/-- Embeds `HSAILAllocationInfo::getNewTlabForDonorThread`: retire the old
tlab, compute a new size (zero means failure), ask the heap for that many
words (NULL means failure), and on success fill the thread's TLAB with the
new region (zero-filling under `ZeroTLAB` has no effect on the fields
modelled here).  Returns the C++ `bool` result together with the thread's
TLAB state afterwards. -/
def getNewTlabForDonorThread (env : DonorEnv) (t : Tlab) : Bool × Tlab :=
  let t1 := clearBeforeAllocation t
  if env.computeSize = 0 then (false, t1)
  else
    match env.allocResult with
    | none => (false, t1)
    | some tlabStart => (true, Tlab.fill tlabStart tlabStart env.computeSize)

/-- The thread's TLAB state at the point where the constructor snapshots it
into a `HSAILTlabInfo`: refilled first when the thread had no current
region (`tlab->end() == NULL`). -/
def buildTlabForThread (env : DonorEnv) : Tlab :=
  if env.tlab0.end_ = 0 then (getNewTlabForDonorThread env env.tlab0).2 else env.tlab0

/-- The state built by the `HSAILAllocationInfo` constructor: donor-thread
count, pool capacity (`max_tlab_infos`), the current-region entries
(`_cur_tlab_infos`, which the constructor points at the first N pool
slots), and the pool cursor/end in slot units. -/
structure ConstructResult where
  numDonorThreads : Nat
  maxTlabInfos : Nat
  curTlabInfos : List HSAILTlabInfo
  poolNext : Nat
  poolEnd : Nat
deriving Repr

/-- Embeds the `HSAILAllocationInfo` constructor.  `initSlot i` is the
(uninitialized) content of pool slot `i` before `initialize` runs on it;
`heapBytesFree` is `Universe::heap()->unsafe_max_tlab_alloc(donorThreads[0])`.
With an empty donor-thread set the `guarantee(_num_donor_threads > 0, ...)`
fires (modelled as `none`); otherwise `max_tlab_infos` is computed from the
first donor thread's size estimate, and for each donor thread `i` the
thread's TLAB is refilled if empty and snapshotted into pool slot `i` via
`initialize`, with `_cur_tlab_infos[i]` pointing at that slot. -/
def hsailAllocationInfoNew (initSlot : Nat → HSAILTlabInfo) (heapBytesFree : Nat)
    (envs : List DonorEnv) : Option ConstructResult :=
  match envs with
  | [] => none
  | env0 :: _ =>
    let n := envs.length
    let maxTlabInfos :=
      if env0.computeSize ≠ 0 then
        min (heapBytesFree / env0.computeSize) (64 * n)
      else
        8 * n
    some
      { numDonorThreads := n
        maxTlabInfos := maxTlabInfos
        curTlabInfos := (List.range n).map (fun i =>
          let t := buildTlabForThread (envs.getD i default)
          (initSlot i).initRecord t.start t.top t.end_ i)
        poolNext := n
        poolEnd := maxTlabInfos }

/-- The external invariant on a donor thread's TLAB as shown to this code:
either the thread has no current region (all fields NULL) or the region is
well-formed, `start <= top <= end` with a non-null `end`. -/
def TlabWF (t : Tlab) : Prop :=
  (t.start = 0 ∧ t.top = 0 ∧ t.end_ = 0) ∨
  (t.start ≤ t.top ∧ t.top ≤ t.end_ ∧ t.end_ ≠ 0)

theorem buildTlabForThread_wf (env : DonorEnv) (h : TlabWF env.tlab0) :
    ((buildTlabForThread env).start ≤ (buildTlabForThread env).top ∧
      (buildTlabForThread env).top ≤ (buildTlabForThread env).end_) ∨
    ((buildTlabForThread env).start = 0 ∧ (buildTlabForThread env).top = 0 ∧
      (buildTlabForThread env).end_ = 0) := by
  unfold buildTlabForThread
  by_cases hend : env.tlab0.end_ = 0
  · rw [if_pos hend]
    have h123 : env.tlab0.start = 0 ∧ env.tlab0.top = 0 ∧ env.tlab0.end_ = 0 := by
      rcases h with h' | ⟨_, _, h3⟩
      · exact h'
      · exact absurd hend h3
    unfold getNewTlabForDonorThread clearBeforeAllocation
    have hclear : (if env.tlab0.end_ ≠ 0 then (⟨0, 0, 0⟩ : Tlab) else env.tlab0) = env.tlab0 :=
      if_neg (fun hne => hne hend)
    rw [hclear]
    by_cases hcs : env.computeSize = 0
    · rw [if_pos hcs]
      exact Or.inr h123
    · rw [if_neg hcs]
      cases env.allocResult with
      | none => exact Or.inr h123
      | some a => exact Or.inl ⟨Nat.le_refl a, Nat.le_add_right a env.computeSize⟩
  · rw [if_neg hend]
    rcases h with ⟨_, _, h3⟩ | ⟨h1, h2, _⟩
    · exact absurd h3 hend
    · exact Or.inl ⟨h1, h2⟩

instance (t : Tlab) : Decidable (TlabWF t) := by
  unfold TlabWF
  infer_instance

/-- C2: for every donor-thread set of size N >= 1 whose threads' TLABs show
the external TLAB invariant to this code, `HSAILAllocationInfo`
construction succeeds and produces exactly N current-region entries, one
per donor thread in order (entry i records donor thread i), and each entry
either satisfies `start <= originalTop <= end` or is the explicit unprimed
sentinel with null fields. -/
theorem construct_entries (initSlot : Nat → HSAILTlabInfo) (heapBytesFree : Nat)
    (envs : List DonorEnv) (hne : envs ≠ [])
    (hwf : ∀ env ∈ envs, TlabWF env.tlab0) :
    ∃ r, hsailAllocationInfoNew initSlot heapBytesFree envs = some r ∧
      r.curTlabInfos.length = envs.length ∧
      ∀ i (hi : i < r.curTlabInfos.length),
        (r.curTlabInfos[i]).donor_thread = i ∧
        (((r.curTlabInfos[i]).start ≤ (r.curTlabInfos[i]).original_top ∧
          (r.curTlabInfos[i]).original_top ≤ (r.curTlabInfos[i]).end_) ∨
         ((r.curTlabInfos[i]).start = 0 ∧ (r.curTlabInfos[i]).original_top = 0 ∧
          (r.curTlabInfos[i]).end_ = 0 ∧ (r.curTlabInfos[i]).top = 0)) := by
  cases envs with
  | nil => exact absurd rfl hne
  | cons env0 rest =>
    refine ⟨_, rfl, by simp, ?_⟩
    intro i hi
    have hn : i < (env0 :: rest).length := by
      simpa using hi
    have hmem : (env0 :: rest).getD i default ∈ (env0 :: rest) := by
      rw [List.getD_eq_getElem _ _ hn]
      exact List.getElem_mem _
    have hwfi := buildTlabForThread_wf ((env0 :: rest).getD i default) (hwf _ hmem)
    simp only [List.getElem_map, List.getElem_range, HSAILTlabInfo.initRecord]
    refine ⟨by trivial, ?_⟩
    rcases hwfi with ⟨h1, h2⟩ | ⟨h1, h2, h3⟩
    · exact Or.inl ⟨h1, h2⟩
    · exact Or.inr ⟨h1, h2, h3, h2⟩

theorem construct_entries_witness :
    ∃ r, hsailAllocationInfoNew (fun _ => default) 1000
        [⟨⟨0, 0, 0⟩, 4, some 100⟩, ⟨⟨50, 60, 70⟩, 0, none⟩] = some r ∧
      r.curTlabInfos.length =
        ([⟨⟨0, 0, 0⟩, 4, some 100⟩, ⟨⟨50, 60, 70⟩, 0, none⟩] : List DonorEnv).length ∧
      ∀ i (hi : i < r.curTlabInfos.length),
        (r.curTlabInfos[i]).donor_thread = i ∧
        (((r.curTlabInfos[i]).start ≤ (r.curTlabInfos[i]).original_top ∧
          (r.curTlabInfos[i]).original_top ≤ (r.curTlabInfos[i]).end_) ∨
         ((r.curTlabInfos[i]).start = 0 ∧ (r.curTlabInfos[i]).original_top = 0 ∧
          (r.curTlabInfos[i]).end_ = 0 ∧ (r.curTlabInfos[i]).top = 0)) :=
  construct_entries (fun _ => default) 1000
    [⟨⟨0, 0, 0⟩, 4, some 100⟩, ⟨⟨50, 60, 70⟩, 0, none⟩]
    (by simp) (by decide)

/-- C9: failing to prime a region for a donor thread (zero computed region
size, or the heap allocator returning NULL) is non-fatal:
`getNewTlabForDonorThread` merely reports `false`, construction still
succeeds for any non-empty donor set, and every donor thread's
current-region entry is still recorded in order. -/
theorem construct_prime_failure_nonfatal (initSlot : Nat → HSAILTlabInfo)
    (heapBytesFree : Nat) (envs : List DonorEnv) (hne : envs ≠ []) :
    (∀ env t, env.computeSize = 0 ∨ env.allocResult = none →
      (getNewTlabForDonorThread env t).1 = false) ∧
    ∃ r, hsailAllocationInfoNew initSlot heapBytesFree envs = some r ∧
      r.curTlabInfos.length = envs.length ∧
      ∀ i (hi : i < r.curTlabInfos.length), (r.curTlabInfos[i]).donor_thread = i := by
  constructor
  · intro env t hfail
    unfold getNewTlabForDonorThread
    rcases hfail with hcs | hra
    · rw [if_pos hcs]
    · by_cases hcs : env.computeSize = 0
      · rw [if_pos hcs]
      · rw [if_neg hcs, hra]
  · cases envs with
    | nil => exact absurd rfl hne
    | cons env0 rest =>
      refine ⟨_, rfl, by simp, ?_⟩
      intro i hi
      simp only [List.getElem_map, List.getElem_range, HSAILTlabInfo.initRecord]

theorem construct_prime_failure_nonfatal_witness :
    ((getNewTlabForDonorThread ⟨⟨0, 0, 0⟩, 0, none⟩ ⟨0, 0, 0⟩).1 = false) ∧
    ∃ r, hsailAllocationInfoNew (fun _ => default) 1000
        [⟨⟨0, 0, 0⟩, 0, none⟩] = some r ∧
      r.curTlabInfos.length = 1 ∧
      ∀ i (hi : i < r.curTlabInfos.length), (r.curTlabInfos[i]).donor_thread = i := by
  have h := construct_prime_failure_nonfatal (fun _ => default) 1000
    [⟨⟨0, 0, 0⟩, 0, none⟩] (by simp)
  exact ⟨h.1 ⟨⟨0, 0, 0⟩, 0, none⟩ ⟨0, 0, 0⟩ (Or.inl rfl), h.2⟩

/-! ## PTX driver binding (gpu_ptx.cpp, gpu::Ptx::probe_linkage)

The dynamic-library mechanism is external ("bind named native entry
points; fail if any is missing"): `dllLoad` models `os::dll_load` (`none`
= NULL handle) and `dllLookup` models `os::dll_lookup` (`none` = NULL
function pointer). -/

/-- The catalog of entry-point names that `probe_linkage` resolves, in
source order; on x86-64 builds the second group resolves the `_v2` symbol
variants (`LOOKUP_CUDA_V2_FUNCTION`). -/
def cudaSymbolNames (amd64 : Bool) : List String :=
  ["cuInit", "cuCtxSynchronize", "cuCtxSetCurrent", "cuDeviceGetCount",
   "cuDeviceGetName", "cuDeviceGet", "cuDeviceComputeCapability",
   "cuDeviceGetAttribute", "cuModuleGetFunction", "cuModuleLoadDataEx",
   "cuLaunchKernel", "cuMemHostRegister", "cuMemHostUnregister"] ++
  (if amd64 then
    ["cuCtxCreate_v2", "cuCtxDestroy_v2", "cuMemAlloc_v2", "cuMemFree_v2",
     "cuMemcpyHtoD_v2", "cuMemcpyDtoH_v2", "cuMemHostGetDevicePointer_v2"]
   else
    ["cuCtxCreate", "cuCtxDestroy", "cuMemAlloc", "cuMemFree",
     "cuMemcpyHtoD", "cuMemcpyDtoH", "cuMemHostGetDevicePointer"])

/-- The `LOOKUP_CUDA_FUNCTION` chain: each name is looked up in turn and
its function pointer stored into the corresponding static slot; on the
first missing symbol the routine returns 0 (false), leaving the slots
resolved so far populated.  The result pairs the C++ `bool` with the list
of populated (name, pointer) slots. -/
def lookupAll (lookup : String → Option Nat) :
    List String → List (String × Nat) → Bool × List (String × Nat)
  | [], acc => (true, acc)
  | n :: rest, acc =>
    match lookup n with
    | none => (false, acc)
    | some p => lookupAll lookup rest (acc ++ [(n, p)])

/-- Environment of `probe_linkage`: the platform's canonical library name
(`cuda_library_name`, the empty string on platforms that are neither LINUX
nor APPLE), whether the build is x86-64, and the external loader. -/
structure LinkEnv where
  libraryName : String
  amd64 : Bool
  dllLoad : String → Option Nat
  dllLookup : Nat → String → Option Nat

/-- Embeds `gpu::Ptx::probe_linkage`.  In the source the first guard is
`if (cuda_library_name != NULL)`; `cuda_library_name` is a static array,
so its address is never NULL and this branch is always taken — even on the
unsupported platform where the name is the empty string — making the
`else` branch (print "Unsupported CUDA platform" and return false)
unreachable.  The embedding therefore proceeds directly to `dll_load`. -/
def probe_linkage (env : LinkEnv) : Bool × List (String × Nat) :=
  match env.dllLoad env.libraryName with
  | some handle => lookupAll (env.dllLookup handle) (cudaSymbolNames env.amd64) []
  | none => (false, [])

/-! ## Device capability queries (gpu_ptx.cpp, ncores and gpu::Ptx::total_cores) -/

/-- Embeds the file-level `ncores(major, minor)`: the switch on
`device_type = (major << 4) + minor`, returning the cores-per-
multiprocessor constant, or 0 together with the "Unhandled device" warning
(second component `true`) for a pair outside the table. -/
def ncores (major minor : Int) : Int × Bool :=
  let device_type := major * 16 + minor
  if device_type = 0x10 then (8, false)
  else if device_type = 0x11 then (8, false)
  else if device_type = 0x12 then (8, false)
  else if device_type = 0x13 then (8, false)
  else if device_type = 0x20 then (32, false)
  else if device_type = 0x21 then (48, false)
  else if device_type = 0x30 then (192, false)
  else if device_type = 0x35 then (192, false)
  else (0, true)

/-- Results of the eight `cuDeviceGetAttribute` queries made by
`total_cores`, in source order (status 0 is `GRAAL_CUDA_SUCCESS`). -/
structure AttrEnv where
  minorStatus : Int
  minor : Int
  majorStatus : Int
  major : Int
  nmpStatus : Int
  nmp : Int
  maxThreadsStatus : Int
  warpSizeStatus : Int
  asyncEnginesStatus : Int
  canMapStatus : Int
  concurrentStatus : Int
deriving Repr, DecidableEq

/-- Embeds `gpu::Ptx::total_cores`: queries minor, major and
multiprocessor count, computes `total = nmp * ncores(major, minor)`, then
queries five further attributes (used only for diagnostics), returning 0
if any query fails and `total` otherwise. -/
def total_cores (env : AttrEnv) : Int :=
  if env.minorStatus ≠ 0 then 0
  else if env.majorStatus ≠ 0 then 0
  else if env.nmpStatus ≠ 0 then 0
  else
    let total := env.nmp * (ncores env.major env.minor).1
    if env.maxThreadsStatus ≠ 0 then 0
    else if env.warpSizeStatus ≠ 0 then 0
    else if env.asyncEnginesStatus ≠ 0 then 0
    else if env.canMapStatus ≠ 0 then 0
    else if env.concurrentStatus ≠ 0 then 0
    else total

/-! ## Kernel execution (gpu_ptx.cpp, gpu::Ptx::execute_kernel_from_vm and
gpu::Ptx::execute_warp)

The CUDA driver is external; each driver call's status is supplied by the
environment, and the calls actually made are recorded as a trace. -/

/-- Byte-size constants for return-value copies.  Modelled from the spec:
the `T_*_BYTE_SIZE` constants are defined in headers outside src/; the
spec gives int/bool -> 4 bytes, float -> 4, double/long -> 8, and an
object reference -> platform pointer width (`T_OBJECT_BYTE_SIZE`, a
parameter `ptrSize` below). -/
def T_INT_BYTE_SIZE : Nat := 4

def T_FLOAT_BYTE_SIZE : Nat := 4

def T_DOUBLE_BYTE_SIZE : Nat := 8

def T_LONG_BYTE_SIZE : Nat := 8

/-- The driver calls a kernel execution can make, in trace order. -/
inductive DriverCall where
  | memalloc (bytes : Int)
  | launchKernel
  | ctxSynchronize
  | memcpyDtoH (bytes : Nat)
  | memfree
  | ctxDestroy
deriving Repr, DecidableEq

/-- Outcome of `execute_kernel_from_vm`: a thrown NullPointerException for
a null kernel handle, a thrown Exception after a failed driver call, or
normal completion with the primitive return value. -/
inductive VmOutcome where
  | threwNPE
  | threwException
  | ok (value : Int)
deriving Repr, DecidableEq

/-- Environment of one `execute_kernel_from_vm` invocation: the arguments
and the status each driver call would return (0 = `GRAAL_CUDA_SUCCESS`);
`deviceValue` is what a successful device-to-host copy reads. -/
structure VmKernelEnv where
  kernel : Nat
  bufferSize : Int
  encodedReturnTypeSize : Int
  memallocStatus : Int
  launchStatus : Int
  syncStatus : Int
  memcpyStatus : Int
  memfreeStatus : Int
  ctxDestroyStatus : Int
  deviceValue : Int
deriving Repr, DecidableEq

/-- Embeds `gpu::Ptx::execute_kernel_from_vm` (the write of the device
return pointer into the argument buffer is omitted — no claim concerns the
buffer contents).  A null kernel throws NPE; `returnTypeSize` is the
magnitude of the encoded size, an object return is signalled by a negative
encoding; the return slot is allocated only when `returnTypeSize != 0`;
after launch and synchronize, an object return copies `T_OBJECT_BYTE_SIZE`
(= `ptrSize`) bytes while any nonzero primitive return copies
`T_LONG_BYTE_SIZE` bytes; the return slot is freed only when
`returnTypeSize != 0`; finally the context is destroyed. -/
def executeKernelFromVm (ptrSize : Nat) (env : VmKernelEnv) :
    VmOutcome × List DriverCall :=
  if env.kernel = 0 then (VmOutcome.threwNPE, [])
  else
    let isObjectReturn := env.encodedReturnTypeSize < 0
    let returnTypeSize : Int :=
      if env.encodedReturnTypeSize < 0 then -env.encodedReturnTypeSize
      else env.encodedReturnTypeSize
    let t0 : List DriverCall :=
      if returnTypeSize ≠ 0 then [DriverCall.memalloc returnTypeSize] else []
    if returnTypeSize ≠ 0 ∧ env.memallocStatus ≠ 0 then (VmOutcome.threwException, t0)
    else
      let t1 := t0 ++ [DriverCall.launchKernel]
      if env.launchStatus ≠ 0 then (VmOutcome.threwException, t1)
      else
        let t2 := t1 ++ [DriverCall.ctxSynchronize]
        if env.syncStatus ≠ 0 then (VmOutcome.threwException, t2)
        else
          let copyCalls : List DriverCall :=
            if isObjectReturn then [DriverCall.memcpyDtoH ptrSize]
            else if 0 < returnTypeSize then [DriverCall.memcpyDtoH T_LONG_BYTE_SIZE]
            else []
          let t3 := t2 ++ copyCalls
          if (isObjectReturn ∨ 0 < returnTypeSize) ∧ env.memcpyStatus ≠ 0 then
            (VmOutcome.threwException, t3)
          else
            let t4 := t3 ++ (if returnTypeSize ≠ 0 then [DriverCall.memfree] else [])
            if returnTypeSize ≠ 0 ∧ env.memfreeStatus ≠ 0 then (VmOutcome.threwException, t4)
            else
              let t5 := t4 ++ [DriverCall.ctxDestroy]
              if env.ctxDestroyStatus ≠ 0 then (VmOutcome.threwException, t5)
              else
                (VmOutcome.ok (if isObjectReturn then 0
                  else if 0 < returnTypeSize then env.deviceValue else 0), t5)

/-- The `BasicType` values `execute_warp` switches on for the return
copy. -/
inductive PtxBasicType where
  | tInt
  | tBoolean
  | tFloat
  | tDouble
  | tLong
  | tVoid
  | tOther
deriving Repr, DecidableEq

/-- The byte count `execute_warp` copies for each return type, `none` when
no copy is made (`T_VOID`, and the unhandled default which only prints a
TODO message). -/
def warpCopyBytes : PtxBasicType → Option Nat
  | PtxBasicType.tInt => some T_INT_BYTE_SIZE
  | PtxBasicType.tBoolean => some T_INT_BYTE_SIZE
  | PtxBasicType.tFloat => some T_FLOAT_BYTE_SIZE
  | PtxBasicType.tDouble => some T_DOUBLE_BYTE_SIZE
  | PtxBasicType.tLong => some T_LONG_BYTE_SIZE
  | PtxBasicType.tVoid => none
  | PtxBasicType.tOther => none

/-- Environment of one `execute_warp` invocation: the kernel handle, the
return type reported by `ptxka.get_ret_type()`, and each driver call's
status. -/
structure WarpEnv where
  kernel : Nat
  retType : PtxBasicType
  launchStatus : Int
  syncStatus : Int
  memcpyStatus : Int
  memfreeStatus : Int
  ctxDestroyStatus : Int
deriving Repr, DecidableEq

/-- The tail of `execute_warp` after the return-value copy: free the device
return buffer (unconditionally, even for `T_VOID`), destroy the context,
and return true. -/
def executeWarpTail (env : WarpEnv) (t : List DriverCall) : Bool × List DriverCall :=
  let t4 := t ++ [DriverCall.memfree]
  if env.memfreeStatus ≠ 0 then (false, t4)
  else
    let t5 := t4 ++ [DriverCall.ctxDestroy]
    if env.ctxDestroyStatus ≠ 0 then (false, t5)
    else (true, t5)

/-- Embeds `gpu::Ptx::execute_warp`: a NULL kernel returns false before
launching; then launch, synchronize, the per-return-type device-to-host
copy (sized by `warpCopyBytes`), the unconditional free of
`ptxka._dev_return_value` and the context destruction. -/
def executeWarp (env : WarpEnv) : Bool × List DriverCall :=
  if env.kernel = 0 then (false, [])
  else
    let t1 := [DriverCall.launchKernel]
    if env.launchStatus ≠ 0 then (false, t1)
    else
      let t2 := t1 ++ [DriverCall.ctxSynchronize]
      if env.syncStatus ≠ 0 then (false, t2)
      else
        match warpCopyBytes env.retType with
        | some sz =>
          let t3 := t2 ++ [DriverCall.memcpyDtoH sz]
          if env.memcpyStatus ≠ 0 then (false, t3)
          else executeWarpTail env t3
        | none => executeWarpTail env t2

/-- Calls in a trace that allocate a device return buffer. -/
def memallocCount (t : List DriverCall) : Nat :=
  (t.filter (fun c => match c with | DriverCall.memalloc _ => true | _ => false)).length

/-- Calls in a trace that free a device return buffer. -/
def memfreeCount (t : List DriverCall) : Nat :=
  (t.filter (fun c => match c with | DriverCall.memfree => true | _ => false)).length

/-- The sizes of the device-to-host copies in a trace, in order. -/
def copySizes (t : List DriverCall) : List Nat :=
  t.filterMap (fun c => match c with | DriverCall.memcpyDtoH n => some n | _ => none)

/-- C3 (code-bug evidence): on the unsupported platform the canonical
library name is the empty string, yet `probe_linkage` does not fail
immediately: the C++ guard `cuda_library_name != NULL` compares a static
array's address with NULL and is therefore always true, so the routine
proceeds to `dll_load("")`; in an environment where that load succeeds and
every symbol resolves, `probe_linkage` returns true with all 20 entry
points populated — contradicting the claim that an empty canonical library
name always fails immediately. -/
theorem probe_linkage_empty_name_not_immediate_failure :
    (probe_linkage ⟨"", true, fun _ => some 1, fun _ _ => some 7⟩).1 = true ∧
    (probe_linkage ⟨"", true, fun _ => some 1, fun _ _ => some 7⟩).2.length = 20 :=
  ⟨rfl, rfl⟩

/-- C5: `execute_kernel_from_vm` with a void return type (encoded
return-type size 0) neither allocates nor frees a device return buffer:
both call counts are zero on every path. -/
theorem executeKernelFromVm_void_no_return_buffer (ptrSize : Nat) (env : VmKernelEnv)
    (h : env.encodedReturnTypeSize = 0) :
    memallocCount (executeKernelFromVm ptrSize env).2 = 0 ∧
    memfreeCount (executeKernelFromVm ptrSize env).2 = 0 := by
  unfold executeKernelFromVm
  simp only [h]
  norm_num
  split_ifs <;> simp [memallocCount, memfreeCount]

theorem executeKernelFromVm_void_no_return_buffer_witness :
    memallocCount (executeKernelFromVm 8 ⟨1, 64, 0, 0, 0, 0, 0, 0, 0, 0⟩).2 = 0 ∧
    memfreeCount (executeKernelFromVm 8 ⟨1, 64, 0, 0, 0, 0, 0, 0, 0, 0⟩).2 = 0 :=
  executeKernelFromVm_void_no_return_buffer 8 ⟨1, 64, 0, 0, 0, 0, 0, 0, 0, 0⟩ rfl

/-- C6 counterexample: an int return (encoded return-type size 4, positive
so not an object reference) through `execute_kernel_from_vm` with every
driver call succeeding copies 8 bytes (`T_LONG_BYTE_SIZE`), not the 4
bytes the claim gives for int. -/
theorem executeKernelFromVm_int_copies_eight :
    copySizes (executeKernelFromVm 8 ⟨1, 64, 4, 0, 0, 0, 0, 0, 0, 7⟩).2 = [8] ∧
    (8 : Nat) ≠ 4 := by
  decide

/-- C6 (amended): in `execute_warp` every successful execution copies the
return value sized per return type (int and bool 4 bytes, float 4 bytes,
double and long 8 bytes, no copy for void or unhandled types); in
`execute_kernel_from_vm`, an object-reference return copies the platform
pointer width, but every nonzero-size primitive return copies 8 bytes
(`T_LONG_BYTE_SIZE`) regardless of the encoded size. -/
theorem returnCopy_sizes (ptrSize : Nat) :
    (∀ env : WarpEnv, (executeWarp env).1 = true →
      copySizes (executeWarp env).2 =
        (match env.retType with
         | PtxBasicType.tInt => [4]
         | PtxBasicType.tBoolean => [4]
         | PtxBasicType.tFloat => [4]
         | PtxBasicType.tDouble => [8]
         | PtxBasicType.tLong => [8]
         | PtxBasicType.tVoid => []
         | PtxBasicType.tOther => [])) ∧
    (∀ env : VmKernelEnv, env.kernel ≠ 0 → 0 < env.encodedReturnTypeSize →
      env.memallocStatus = 0 → env.launchStatus = 0 → env.syncStatus = 0 →
      copySizes (executeKernelFromVm ptrSize env).2 = [T_LONG_BYTE_SIZE]) ∧
    (∀ env : VmKernelEnv, env.kernel ≠ 0 → env.encodedReturnTypeSize < 0 →
      env.memallocStatus = 0 → env.launchStatus = 0 → env.syncStatus = 0 →
      copySizes (executeKernelFromVm ptrSize env).2 = [ptrSize]) := by
  refine ⟨?_, ?_, ?_⟩
  · intro env hsucc
    rcases env with ⟨k, rt, ls, ss, ms, fs, ds⟩
    cases rt <;>
      (simp only [executeWarp, executeWarpTail, warpCopyBytes] at hsucc ⊢;
       split_ifs at hsucc;
       simp_all [copySizes, T_INT_BYTE_SIZE, T_FLOAT_BYTE_SIZE, T_DOUBLE_BYTE_SIZE,
         T_LONG_BYTE_SIZE])
  · intro env hk henc hma hl hs
    have h1 : ¬ env.encodedReturnTypeSize < 0 := by omega
    have h2 : ¬ env.encodedReturnTypeSize = 0 := by omega
    unfold executeKernelFromVm
    rw [if_neg hk]
    simp only [h1, h2, hma, hl, hs, henc, if_false, ite_false, not_false_eq_true,
      ne_eq, not_true_eq_false, false_and, and_false, if_true, ite_true, false_or, if_pos]
    split_ifs <;>
      simp [copySizes, List.filterMap_append, T_LONG_BYTE_SIZE, henc]
  · intro env hk henc hma hl hs
    have h1 : env.encodedReturnTypeSize < 0 := henc
    have h2 : ¬ -env.encodedReturnTypeSize = 0 := by omega
    unfold executeKernelFromVm
    rw [if_neg hk]
    simp only [h1, h2, hma, hl, hs, if_true, ite_true, not_false_eq_true, ne_eq,
      not_true_eq_false, false_and, and_false, if_false, ite_false, true_or, if_pos]
    split_ifs <;>
      simp [copySizes, List.filterMap_append]

theorem returnCopy_sizes_witness :
    copySizes (executeWarp ⟨1, PtxBasicType.tInt, 0, 0, 0, 0, 0⟩).2 = [4] ∧
    copySizes (executeKernelFromVm 8 ⟨1, 64, 4, 0, 0, 0, 0, 0, 0, 7⟩).2 = [T_LONG_BYTE_SIZE] ∧
    copySizes (executeKernelFromVm 8 ⟨1, 64, -8, 0, 0, 0, 0, 0, 0, 7⟩).2 = [8] := by
  refine ⟨?_, ?_, ?_⟩
  · exact (returnCopy_sizes 8).1 ⟨1, PtxBasicType.tInt, 0, 0, 0, 0, 0⟩ rfl
  · exact (returnCopy_sizes 8).2.1 ⟨1, 64, 4, 0, 0, 0, 0, 0, 0, 7⟩
      (by decide) (by decide) rfl rfl rfl
  · exact (returnCopy_sizes 8).2.2 ⟨1, 64, -8, 0, 0, 0, 0, 0, 0, 7⟩
      (by decide) (by decide) rfl rfl rfl

/-- C8: with every attribute query succeeding, `total_cores` returns the
multiprocessor count times the looked-up cores-per-multiprocessor
constant; the fixed table maps 1.0-1.3 to 8, 2.0 to 32, 2.1 to 48 and
3.0/3.5 to 192, an unknown pair such as (9,9) maps to 0 with a warning
(not an error); in particular (major=3, minor=0) with 15 multiprocessors
yields 2880 and (major=9, minor=9) yields 0. -/
theorem total_cores_table (env : AttrEnv)
    (h : env.minorStatus = 0 ∧ env.majorStatus = 0 ∧ env.nmpStatus = 0 ∧
      env.maxThreadsStatus = 0 ∧ env.warpSizeStatus = 0 ∧
      env.asyncEnginesStatus = 0 ∧ env.canMapStatus = 0 ∧ env.concurrentStatus = 0) :
    total_cores env = env.nmp * (ncores env.major env.minor).1 ∧
    ncores 1 0 = (8, false) ∧ ncores 1 1 = (8, false) ∧
    ncores 1 2 = (8, false) ∧ ncores 1 3 = (8, false) ∧
    ncores 2 0 = (32, false) ∧ ncores 2 1 = (48, false) ∧
    ncores 3 0 = (192, false) ∧ ncores 3 5 = (192, false) ∧
    ncores 9 9 = (0, true) ∧
    (env.major = 3 → env.minor = 0 → env.nmp = 15 → total_cores env = 2880) ∧
    (env.major = 9 → env.minor = 9 → total_cores env = 0) := by
  obtain ⟨h1, h2, h3, h4, h5, h6, h7, h8⟩ := h
  have htc : total_cores env = env.nmp * (ncores env.major env.minor).1 := by
    unfold total_cores
    simp [h1, h2, h3, h4, h5, h6, h7, h8]
  refine ⟨htc, by decide, by decide, by decide, by decide, by decide, by decide,
    by decide, by decide, by decide, ?_, ?_⟩
  · intro ha hb hc
    rw [htc, ha, hb, hc]
    decide
  · intro ha hb
    rw [htc, ha, hb]
    have hz : (ncores 9 9).1 = 0 := by decide
    rw [hz, mul_zero]

theorem total_cores_table_witness :
    total_cores ⟨0, 0, 0, 3, 0, 15, 0, 0, 0, 0, 0⟩ = 2880 ∧
    total_cores ⟨0, 9, 0, 9, 0, 15, 0, 0, 0, 0, 0⟩ = 0 := by
  constructor
  · exact (total_cores_table ⟨0, 0, 0, 3, 0, 15, 0, 0, 0, 0, 0⟩
      ⟨rfl, rfl, rfl, rfl, rfl, rfl, rfl, rfl⟩).2.2.2.2.2.2.2.2.2.2.1 rfl rfl rfl
  · exact (total_cores_table ⟨0, 9, 0, 9, 0, 15, 0, 0, 0, 0, 0⟩
      ⟨rfl, rfl, rfl, rfl, rfl, rfl, rfl, rfl⟩).2.2.2.2.2.2.2.2.2.2.2 rfl rfl
